import Mathlib

/-!
Shallow embedding of the multi-location inventory ledger of `src/app.py`
(a Streamlit + JSON-file inventory management application).

The persistent store `JSONDatabase.data` is a dictionary of collections;
the ledger claims only touch the collections `inventory` (products),
`inventory_locations` and `audit_log`, so the embedded `Database` carries
exactly those.  Python record dictionaries become structures carrying the
fields the ledger reads or writes; every remaining key of a product record
(price, sku, category_id, ...) is untouched by all ledger operations and is
modelled as the opaque association list `extra`.  `uuid.uuid4()` produces a
fresh identifier distinct from all existing ones; for InventoryLocation rows
(whose identifiers the transfer logic looks up) this is modelled by a
counter `nextRowId`; the generated `id`, `created_at` and `timestamp`
fields of audit entries are read by no claim and are omitted.
-/

set_option autoImplicit false

namespace InventoryApp

/-- A record of the `inventory` collection (a product).  `id`, `name` and
`quantity` are the keys the ledger reads or writes; all other keys are kept
verbatim in `extra`. -/
structure Product where
  id : String
  name : String
  quantity : Int
  extra : List (String × String)
  deriving Repr, DecidableEq

/-- A record of the `inventory_locations` collection: the per-location
quantity breakdown row for one (product, location) pair. -/
structure InventoryLocation where
  id : Nat
  product_id : String
  location_id : String
  quantity : Int
  deriving Repr, DecidableEq

/-- A record of the `audit_log` collection (generated `id` and `timestamp`
omitted, see the module header). -/
structure AuditEntry where
  user_id : String
  action : String
  details : String
  deriving Repr, DecidableEq

/-- The collections of `JSONDatabase.data` that the ledger claims touch,
plus the fresh-identifier counter for InventoryLocation rows. -/
structure Database where
  inventory : List Product
  inventory_locations : List InventoryLocation
  audit_log : List AuditEntry
  nextRowId : Nat
  deriving Repr, DecidableEq

/-- `JSONDatabase.get_inventory_item`: first inventory record with the given
id (`next((item for item in self.data['inventory'] if item['id'] == item_id), None)`). -/
def get_inventory_item (db : Database) (item_id : String) : Option Product :=
  db.inventory.find? (fun item => item.id == item_id)

/-- In-place `item.update({'quantity': q})` on the first inventory record
with the given id: the list with that record's quantity field replaced. -/
def setItemQuantity : List Product → String → Int → List Product
  | [], _, _ => []
  | item :: rest, item_id, q =>
    if item.id == item_id then { item with quantity := q } :: rest
    else item :: setItemQuantity rest item_id q

/-- `JSONDatabase.update_inventory_item`: at every ledger call site the
`update_data` dictionary is exactly `{'quantity': new_qty}`, so the update
is embedded as replacing the quantity field of the first matching record;
returns `true` exactly when a record with the id exists. -/
def update_inventory_item (db : Database) (item_id : String) (new_qty : Int) :
    Database × Bool :=
  match db.inventory.find? (fun item => item.id == item_id) with
  | some _ =>
    ({ db with inventory := setItemQuantity db.inventory item_id new_qty }, true)
  | none => (db, false)

/-- `JSONDatabase.get_inventory_locations(product_id, location_id)` with both
filters given. -/
def get_inventory_locations (db : Database) (product_id location_id : String) :
    List InventoryLocation :=
  db.inventory_locations.filter
    (fun il => il.product_id == product_id && il.location_id == location_id)

/-- `JSONDatabase.get_inventory_locations(product_id=...)` with only the
product filter given. -/
def get_inventory_locations_by_product (db : Database) (product_id : String) :
    List InventoryLocation :=
  db.inventory_locations.filter (fun il => il.product_id == product_id)

/-- In-place `location.update({'quantity': q})` on the first row with the
given row id. -/
def setRowQuantity : List InventoryLocation → Nat → Int → List InventoryLocation
  | [], _, _ => []
  | row :: rest, rid, q =>
    if row.id == rid then { row with quantity := q } :: rest
    else row :: setRowQuantity rest rid q

/-- `JSONDatabase.update_inventory_location`: at both ledger call sites the
`update_data` dictionary is exactly `{'quantity': q}`; returns `true`
exactly when a row with the id exists. -/
def update_inventory_location (db : Database) (rid : Nat) (new_qty : Int) :
    Database × Bool :=
  match db.inventory_locations.find? (fun il => il.id == rid) with
  | some _ =>
    ({ db with inventory_locations := setRowQuantity db.inventory_locations rid new_qty },
     true)
  | none => (db, false)

/-- `JSONDatabase.add_inventory_location`: appends a new row (the generated
`uuid4` id is modelled by the fresh counter value) and returns its id. -/
def add_inventory_location (db : Database) (product_id location_id : String)
    (quantity : Int) : Database × Nat :=
  ({ db with
      inventory_locations :=
        db.inventory_locations ++
          [⟨db.nextRowId, product_id, location_id, quantity⟩],
      nextRowId := db.nextRowId + 1 },
   db.nextRowId)

/-- `JSONDatabase.get_total_inventory_by_product`: sum of the quantities of
all InventoryLocation rows of the product. -/
def get_total_inventory_by_product (db : Database) (product_id : String) : Int :=
  ((get_inventory_locations_by_product db product_id).map (fun loc => loc.quantity)).sum

/-- `JSONDatabase.log_audit`: appends one audit entry. -/
def log_audit (db : Database) (user_id action details : String) : Database :=
  { db with audit_log := db.audit_log ++ [⟨user_id, action, details⟩] }

/-- The details f-string of the audit entry written by `transfer_inventory`. -/
def transferDetails (product_id from_location_id to_location_id : String)
    (quantity : Int) (reason : String) : String :=
  "Transferred " ++ toString quantity ++ " units of " ++ product_id ++
    " from " ++ from_location_id ++ " to " ++ to_location_id ++ ". Reason: " ++ reason

/-- `JSONDatabase.transfer_inventory` (src/app.py lines 155-191).  The
ambient `st.session_state.user_id` is passed explicitly as `user_id`.
Returns the final store together with the `(success, message)` pair the
Python function returns. -/
def transfer_inventory (db : Database) (user_id product_id from_location_id
    to_location_id : String) (quantity : Int) (reason : String) :
    Database × Bool × String :=
  match (get_inventory_locations db product_id from_location_id).head? with
  | none => (db, false, "Not enough inventory at source location")
  | some source_loc =>
    if source_loc.quantity < quantity then
      (db, false, "Not enough inventory at source location")
    else
      let db1 := (update_inventory_location db source_loc.id
        (source_loc.quantity - quantity)).1
      let db2 :=
        match (get_inventory_locations db1 product_id to_location_id).head? with
        | some dest_loc =>
          (update_inventory_location db1 dest_loc.id
            (dest_loc.quantity + quantity)).1
        | none =>
          (add_inventory_location db1 product_id to_location_id quantity).1
      let db3 := log_audit db2 user_id "inventory_transfer"
        (transferDetails product_id from_location_id to_location_id quantity reason)
      (db3, true, "Inventory transferred successfully")

/-- The details f-string of the audit entry written by the receive-stock
handler. -/
def receiveDetails (quantity : Int) (name : String) (new_qty : Int) : String :=
  "Received " ++ toString quantity ++ " units of " ++ name ++
    ". New stock: " ++ toString new_qty

/-- The receive-stock form handler of `inventory_dashboard` (src/app.py
lines 3178-3190): adds the received quantity to the aggregate
`Product.quantity` and logs one `stock_received` audit entry.  The product
id comes from a selectbox over existing products; an unknown id would make
the Python code raise before mutating anything, embedded as a no-op. -/
def receive_stock (db : Database) (user_id product_id : String)
    (quantity : Int) : Database :=
  match get_inventory_item db product_id with
  | none => db
  | some product =>
    let new_qty := product.quantity + quantity
    let db1 := (update_inventory_item db product_id new_qty).1
    log_audit db1 user_id "stock_received" (receiveDetails quantity product.name new_qty)

/-- Outcome of the adjust-stock form handler. -/
inductive AdjustOutcome where
  /-- the adjustment was applied; carries the new aggregate quantity -/
  | adjusted (new_qty : Int)
  /-- `st.error("Cannot have negative stock")`: the handler refuses the
  adjustment; the spec names this outcome `InsufficientStockError` -/
  | insufficientStock
  /-- unknown product id (unreachable through the selectbox UI) -/
  | notFound
  deriving Repr, DecidableEq

/-- The details f-string of the audit entry written by the adjust-stock
handler. -/
def adjustDetails (name : String) (adjustment : Int) (reason : String)
    (new_qty : Int) : String :=
  "Adjusted " ++ name ++ " by " ++ toString adjustment ++ ". Reason: " ++
    reason ++ ". New stock: " ++ toString new_qty

/-- The adjust-stock form handler of `inventory_dashboard` (src/app.py
lines 3222-3238): adds the signed adjustment to the aggregate quantity,
refusing it (with no mutation at all) when the result would be negative. -/
def adjust_stock (db : Database) (user_id product_id : String)
    (adjustment : Int) (reason : String) : Database × AdjustOutcome :=
  match get_inventory_item db product_id with
  | none => (db, .notFound)
  | some product =>
    let new_qty := product.quantity + adjustment
    if new_qty < 0 then
      (db, .insufficientStock)
    else
      let db1 := (update_inventory_item db product_id new_qty).1
      (log_audit db1 user_id "stock_adjusted"
        (adjustDetails product.name adjustment reason new_qty),
       .adjusted new_qty)

/-- The details f-string of the audit entry written by the deduct-stock
handler. -/
def deductDetails (deduct_qty : Int) (name reason : String) : String :=
  "Deducted " ++ toString deduct_qty ++ " of " ++ name ++ ". Reason: " ++ reason

/-- The deduct-stock form handler of `inventory_dashboard` (src/app.py
lines 2853-2865): subtracts the deducted quantity from the aggregate
quantity, clamping at zero, and logs one `stock_deducted` audit entry. -/
def deduct_stock (db : Database) (user_id product_id : String)
    (deduct_qty : Int) (reason : String) : Database :=
  match get_inventory_item db product_id with
  | none => db
  | some product =>
    let new_qty := product.quantity - deduct_qty
    let new_qty := if new_qty < 0 then 0 else new_qty
    let db1 := (update_inventory_item db product_id new_qty).1
    log_audit db1 user_id "stock_deducted" (deductDetails deduct_qty product.name reason)

/-- The per-line-item inventory deduction of invoice creation
(`invoice_management`, src/app.py lines 4374-4379): subtracts the sold
quantity from the aggregate quantity clamped at zero (`max(0, new_qty)`),
skipping items whose product no longer exists (`if product:`).  Neither
this step nor `add_invoice` / `add_invoice_item` calls `log_audit`. -/
def deduct_invoice_item (db : Database) (item_id : String) (quantity : Int) :
    Database :=
  match get_inventory_item db item_id with
  | none => db
  | some product =>
    let new_qty := product.quantity - quantity
    (update_inventory_item db item_id (max 0 new_qty)).1

/-- Spec-level read `quantityAt(P, A)`: the total InventoryLocation
quantity recorded for product `P` at location `A` (the sum over the rows of
that pair; with the one-row-per-pair invariant this is the single row
quantity, and `0` when no row exists). -/
def quantityAt (db : Database) (product_id location_id : String) : Int :=
  ((get_inventory_locations db product_id location_id).map
    (fun loc => loc.quantity)).sum

/-- Spec-level read of the aggregate `Product.quantity` field (`0` when the
product does not exist). -/
def productQuantity (db : Database) (product_id : String) : Int :=
  match get_inventory_item db product_id with
  | some product => product.quantity
  | none => 0

/-- The (product_id, location_id) key of an InventoryLocation row. -/
def pairKey (row : InventoryLocation) : String × String :=
  (row.product_id, row.location_id)

/-- At most one InventoryLocation row per (product_id, location_id) pair. -/
def PairUnique (db : Database) : Prop :=
  (db.inventory_locations.map pairKey).Nodup

/-- All InventoryLocation row identifiers are distinct (in the source they
are `uuid4` values). -/
def RowIdsUnique (db : Database) : Prop :=
  (db.inventory_locations.map (fun row => row.id)).Nodup

/-- The row filter used by `get_inventory_locations` with both arguments. -/
def matchPL (product_id location_id : String) (il : InventoryLocation) : Bool :=
  il.product_id == product_id && il.location_id == location_id

/-- The row filter used by `get_inventory_locations` with only a product. -/
def matchP (product_id : String) (il : InventoryLocation) : Bool :=
  il.product_id == product_id

/-- Total quantity of the rows of a list selected by a filter; both
`quantityAt` and `get_total_inventory_by_product` are instances. -/
def locQtySum (p : InventoryLocation → Bool) (l : List InventoryLocation) : Int :=
  ((l.filter p).map (fun loc => loc.quantity)).sum

/-- Frame relation for C10: the second record may differ from the first
only in its quantity field, and only when the first carries the given
product id. -/
def OnlyQuantityChanged (product_id : String) (a b : Product) : Prop :=
  b.id = a.id ∧ b.name = a.name ∧ b.extra = a.extra ∧ (a.id ≠ product_id → b = a)

/-- Example store for the scenario of section 8 of the spec: product `X`
with aggregate quantity 10, split 10 at location `A` and 0 at location `B`. -/
def scenarioDb : Database :=
  { inventory := [{ id := "X", name := "X", quantity := 10, extra := [] }],
    inventory_locations := [⟨0, "X", "A", 10⟩, ⟨1, "X", "B", 0⟩],
    audit_log := [],
    nextRowId := 2 }

/-- Small example store: product `X` with aggregate quantity 3 and one
InventoryLocation row of quantity 5 at location `L1`. -/
def exampleDb : Database :=
  { inventory := [{ id := "X", name := "X", quantity := 3, extra := [] }],
    inventory_locations := [⟨0, "X", "L1", 5⟩],
    audit_log := [],
    nextRowId := 1 }

/-! ### Helper lemmas about the store primitives -/

@[simp] theorem log_audit_inventory (db : Database) (u a d : String) :
    (log_audit db u a d).inventory = db.inventory := rfl

@[simp] theorem log_audit_locations (db : Database) (u a d : String) :
    (log_audit db u a d).inventory_locations = db.inventory_locations := rfl

@[simp] theorem log_audit_audit (db : Database) (u a d : String) :
    (log_audit db u a d).audit_log = db.audit_log ++ [⟨u, a, d⟩] := rfl

@[simp] theorem add_inventory_location_inventory (db : Database) (P L : String) (q : Int) :
    (add_inventory_location db P L q).1.inventory = db.inventory := rfl

@[simp] theorem add_inventory_location_locations (db : Database) (P L : String) (q : Int) :
    (add_inventory_location db P L q).1.inventory_locations =
      db.inventory_locations ++ [⟨db.nextRowId, P, L, q⟩] := rfl

@[simp] theorem add_inventory_location_audit (db : Database) (P L : String) (q : Int) :
    (add_inventory_location db P L q).1.audit_log = db.audit_log := rfl

theorem setRowQuantity_eq_self (l : List InventoryLocation) (rid : Nat) (q : Int)
    (h : ∀ r ∈ l, ¬(r.id = rid)) : setRowQuantity l rid q = l := by
  induction l with
  | nil => rfl
  | cons a t ih =>
    have ha : ¬(a.id = rid) := h a (List.mem_cons_self a t)
    simp [setRowQuantity, ha, ih (fun r hr => h r (List.mem_cons_of_mem a hr))]

theorem update_inventory_location_fst (db : Database) (rid : Nat) (q : Int) :
    (update_inventory_location db rid q).1 =
      { db with inventory_locations := setRowQuantity db.inventory_locations rid q } := by
  unfold update_inventory_location
  cases hfind : db.inventory_locations.find? (fun il => il.id == rid) with
  | some r => rfl
  | none =>
    have h := List.find?_eq_none.mp hfind
    have hself : setRowQuantity db.inventory_locations rid q = db.inventory_locations :=
      setRowQuantity_eq_self _ _ _ (fun r hr => by simpa using h r hr)
    simp [hself]

@[simp] theorem update_inventory_location_inventory (db : Database) (rid : Nat) (q : Int) :
    (update_inventory_location db rid q).1.inventory = db.inventory := by
  rw [update_inventory_location_fst]

@[simp] theorem update_inventory_location_locations (db : Database) (rid : Nat) (q : Int) :
    (update_inventory_location db rid q).1.inventory_locations =
      setRowQuantity db.inventory_locations rid q := by
  rw [update_inventory_location_fst]

@[simp] theorem update_inventory_location_audit (db : Database) (rid : Nat) (q : Int) :
    (update_inventory_location db rid q).1.audit_log = db.audit_log := by
  rw [update_inventory_location_fst]

theorem setItemQuantity_eq_self (l : List Product) (pid : String) (q : Int)
    (h : ∀ x ∈ l, ¬(x.id = pid)) : setItemQuantity l pid q = l := by
  induction l with
  | nil => rfl
  | cons a t ih =>
    have ha : ¬(a.id = pid) := h a (List.mem_cons_self a t)
    simp [setItemQuantity, ha, ih (fun x hx => h x (List.mem_cons_of_mem a hx))]

theorem update_inventory_item_fst (db : Database) (pid : String) (q : Int) :
    (update_inventory_item db pid q).1 =
      { db with inventory := setItemQuantity db.inventory pid q } := by
  unfold update_inventory_item
  cases hfind : db.inventory.find? (fun item => item.id == pid) with
  | some r => rfl
  | none =>
    have h := List.find?_eq_none.mp hfind
    have hself : setItemQuantity db.inventory pid q = db.inventory :=
      setItemQuantity_eq_self _ _ _ (fun x hx => by simpa using h x hx)
    simp [hself]

@[simp] theorem update_inventory_item_inventory (db : Database) (pid : String) (q : Int) :
    (update_inventory_item db pid q).1.inventory = setItemQuantity db.inventory pid q := by
  rw [update_inventory_item_fst]

@[simp] theorem update_inventory_item_locations (db : Database) (pid : String) (q : Int) :
    (update_inventory_item db pid q).1.inventory_locations = db.inventory_locations := by
  rw [update_inventory_item_fst]

@[simp] theorem update_inventory_item_audit (db : Database) (pid : String) (q : Int) :
    (update_inventory_item db pid q).1.audit_log = db.audit_log := by
  rw [update_inventory_item_fst]

@[simp] theorem map_id_setRowQuantity (l : List InventoryLocation) (rid : Nat) (q : Int) :
    (setRowQuantity l rid q).map (fun row => row.id) = l.map (fun row => row.id) := by
  induction l with
  | nil => rfl
  | cons a t ih => by_cases h : a.id = rid <;> simp [setRowQuantity, h, ih]

@[simp] theorem map_pairKey_setRowQuantity (l : List InventoryLocation) (rid : Nat) (q : Int) :
    (setRowQuantity l rid q).map pairKey = l.map pairKey := by
  induction l with
  | nil => rfl
  | cons a t ih => by_cases h : a.id = rid <;> simp [setRowQuantity, h, ih, pairKey]

@[simp] theorem matchPL_set_quantity (P A : String) (x : InventoryLocation) (q : Int) :
    matchPL P A { x with quantity := q } = matchPL P A x := rfl

@[simp] theorem matchP_set_quantity (P : String) (x : InventoryLocation) (q : Int) :
    matchP P { x with quantity := q } = matchP P x := rfl

theorem locQtySum_cons (p : InventoryLocation → Bool) (a : InventoryLocation)
    (l : List InventoryLocation) :
    locQtySum p (a :: l) = (if p a then a.quantity else 0) + locQtySum p l := by
  by_cases h : p a <;> simp [locQtySum, List.filter_cons, h]

theorem locQtySum_append (p : InventoryLocation → Bool) (l m : List InventoryLocation) :
    locQtySum p (l ++ m) = locQtySum p l + locQtySum p m := by
  simp [locQtySum, List.filter_append]

theorem locQtySum_nonneg (p : InventoryLocation → Bool) (l : List InventoryLocation)
    (h : ∀ x ∈ l, 0 ≤ x.quantity) : 0 ≤ locQtySum p l := by
  induction l with
  | nil => simp [locQtySum]
  | cons a t ih =>
    rw [locQtySum_cons]
    have ha := h a (List.mem_cons_self a t)
    have ht := ih (fun x hx => h x (List.mem_cons_of_mem a hx))
    by_cases hp : p a
    · rw [if_pos hp]; exact add_nonneg ha ht
    · rw [if_neg hp]; simpa using ht

theorem single_le_locQtySum (p : InventoryLocation → Bool) (l : List InventoryLocation)
    (r : InventoryLocation) (hr : r ∈ l) (hp : p r = true)
    (h : ∀ x ∈ l, 0 ≤ x.quantity) : r.quantity ≤ locQtySum p l := by
  induction l with
  | nil => cases hr
  | cons a t ih =>
    rw [locQtySum_cons]
    have ht : ∀ x ∈ t, 0 ≤ x.quantity := fun x hx => h x (List.mem_cons_of_mem a hx)
    rcases List.mem_cons.mp hr with h1 | h1
    · subst h1
      rw [if_pos hp]
      have := locQtySum_nonneg p t ht
      linarith
    · have hrec := ih h1 ht
      have ha := h a (List.mem_cons_self a t)
      by_cases hpa : p a
      · rw [if_pos hpa]; linarith
      · rw [if_neg hpa]; linarith

theorem locQtySum_setRowQuantity (p : InventoryLocation → Bool)
    (hp : ∀ x q, p { x with quantity := q } = p x)
    (l : List InventoryLocation) (r : InventoryLocation) (q : Int)
    (hr : r ∈ l) (hnd : (l.map (fun row => row.id)).Nodup) :
    locQtySum p (setRowQuantity l r.id q) =
      locQtySum p l + (if p r then q - r.quantity else 0) := by
  induction l with
  | nil => cases hr
  | cons a t ih =>
    rcases List.mem_cons.mp hr with h1 | h1
    · subst h1
      have hstep : setRowQuantity (r :: t) r.id q = { r with quantity := q } :: t := by
        simp [setRowQuantity]
      rw [hstep, locQtySum_cons, locQtySum_cons, hp]
      by_cases hpr : p r
      · rw [if_pos hpr, if_pos hpr, if_pos hpr]
        show q + locQtySum p t = r.quantity + locQtySum p t + (q - r.quantity)
        ring
      · rw [if_neg hpr, if_neg hpr, if_neg hpr]; ring
    · have hne : ¬(a.id = r.id) := by
        intro hid
        have hmem : r.id ∈ t.map (fun row => row.id) := List.mem_map_of_mem _ h1
        rw [List.map_cons, List.nodup_cons] at hnd
        exact hnd.1 (hid ▸ hmem)
      have hstep : setRowQuantity (a :: t) r.id q = a :: setRowQuantity t r.id q := by
        simp [setRowQuantity, hne]
      rw [hstep, locQtySum_cons, locQtySum_cons,
        ih h1 (by rw [List.map_cons, List.nodup_cons] at hnd; exact hnd.2)]
      ring

theorem find?_setRowQuantity (p : InventoryLocation → Bool)
    (hp : ∀ x q, p { x with quantity := q } = p x)
    (l : List InventoryLocation) (rid : Nat) (q : Int)
    (h : ∀ x ∈ l, x.id = rid → p x = false) :
    (setRowQuantity l rid q).find? p = l.find? p := by
  induction l with
  | nil => rfl
  | cons a t ih =>
    by_cases ha : a.id = rid
    · have hpa : p a = false := h a (List.mem_cons_self a t) ha
      have hstep : setRowQuantity (a :: t) rid q = { a with quantity := q } :: t := by
        simp [setRowQuantity, ha]
      rw [hstep, List.find?_cons_of_neg _ (by simp [hp, hpa]),
        List.find?_cons_of_neg _ (by simp [hpa])]
    · have hstep : setRowQuantity (a :: t) rid q = a :: setRowQuantity t rid q := by
        simp [setRowQuantity, ha]
      rw [hstep]
      by_cases hpa : p a
      · rw [List.find?_cons_of_pos _ hpa, List.find?_cons_of_pos _ hpa]
      · rw [List.find?_cons_of_neg _ hpa, List.find?_cons_of_neg _ hpa]
        exact ih (fun x hx => h x (List.mem_cons_of_mem a hx))

theorem head?_filter (p : InventoryLocation → Bool) (l : List InventoryLocation) :
    (l.filter p).head? = l.find? p := by
  induction l with
  | nil => rfl
  | cons a t ih => by_cases h : p a <;> simp [List.filter_cons, h, ih]

theorem find?_setItemQuantity_self (l : List Product) (pid : String) (q : Int)
    (p : Product) (h : l.find? (fun item => item.id == pid) = some p) :
    (setItemQuantity l pid q).find? (fun item => item.id == pid) =
      some { p with quantity := q } := by
  induction l with
  | nil => simp at h
  | cons a t ih =>
    by_cases ha : a.id = pid
    · have : a = p := by
        have := List.find?_cons_of_pos (p := fun item => item.id == pid) t
          (by simpa using ha)
        rw [this] at h
        exact Option.some.inj h
      subst this
      have hstep : setItemQuantity (a :: t) pid q = { a with quantity := q } :: t := by
        simp [setItemQuantity, ha]
      rw [hstep, List.find?_cons_of_pos _ (by simpa using ha)]
    · have hstep : setItemQuantity (a :: t) pid q = a :: setItemQuantity t pid q := by
        simp [setItemQuantity, ha]
      rw [List.find?_cons_of_neg _ (by simpa using ha)] at h
      rw [hstep, List.find?_cons_of_neg _ (by simpa using ha)]
      exact ih h

theorem setItemQuantity_onlyQuantity (l : List Product) (pid : String) (q : Int) :
    List.Forall₂ (OnlyQuantityChanged pid) l (setItemQuantity l pid q) := by
  induction l with
  | nil => exact List.Forall₂.nil
  | cons a t ih =>
    by_cases ha : a.id = pid
    · have hstep : setItemQuantity (a :: t) pid q = { a with quantity := q } :: t := by
        simp [setItemQuantity, ha]
      rw [hstep]
      exact List.Forall₂.cons ⟨rfl, rfl, rfl, fun hne => absurd ha hne⟩
        (List.forall₂_same.mpr (fun x _ => ⟨rfl, rfl, rfl, fun _ => rfl⟩))
    · have hstep : setItemQuantity (a :: t) pid q = a :: setItemQuantity t pid q := by
        simp [setItemQuantity, ha]
      rw [hstep]
      exact List.Forall₂.cons ⟨rfl, rfl, rfl, fun _ => rfl⟩ ih

theorem get_inventory_locations_eq (db : Database) (P A : String) :
    get_inventory_locations db P A = db.inventory_locations.filter (matchPL P A) := rfl

theorem quantityAt_eq (db : Database) (P A : String) :
    quantityAt db P A = locQtySum (matchPL P A) db.inventory_locations := rfl

theorem total_eq (db : Database) (P : String) :
    get_total_inventory_by_product db P = locQtySum (matchP P) db.inventory_locations := rfl

/-! ### Decomposition of `transfer_inventory` into its four branches -/

theorem transfer_fail_of_none (db : Database) (uid P A B : String) (q : Int) (r : String)
    (hfind : db.inventory_locations.find? (matchPL P A) = none) :
    transfer_inventory db uid P A B q r =
      (db, false, "Not enough inventory at source location") := by
  have h1 : (get_inventory_locations db P A).head? = none := by
    rw [get_inventory_locations_eq, head?_filter, hfind]
  unfold transfer_inventory
  rw [h1]

theorem transfer_fail_of_insufficient (db : Database) (uid P A B : String) (q : Int)
    (r : String) (s : InventoryLocation)
    (hfind : db.inventory_locations.find? (matchPL P A) = some s)
    (hq : s.quantity < q) :
    transfer_inventory db uid P A B q r =
      (db, false, "Not enough inventory at source location") := by
  have h1 : (get_inventory_locations db P A).head? = some s := by
    rw [get_inventory_locations_eq, head?_filter, hfind]
  unfold transfer_inventory
  rw [h1]
  simp [hq]

theorem transfer_success_dest_found (db : Database) (uid P A B : String) (q : Int)
    (r : String) (s d : InventoryLocation)
    (hfind : db.inventory_locations.find? (matchPL P A) = some s)
    (hq : ¬(s.quantity < q))
    (hdest : (setRowQuantity db.inventory_locations s.id (s.quantity - q)).find? (matchPL P B)
      = some d) :
    transfer_inventory db uid P A B q r =
      ({ db with
          inventory_locations :=
            setRowQuantity (setRowQuantity db.inventory_locations s.id (s.quantity - q))
              d.id (d.quantity + q),
          audit_log := db.audit_log ++
            [⟨uid, "inventory_transfer", transferDetails P A B q r⟩] },
       true, "Inventory transferred successfully") := by
  have h1 : (get_inventory_locations db P A).head? = some s := by
    rw [get_inventory_locations_eq, head?_filter, hfind]
  unfold transfer_inventory
  rw [h1]
  simp only [if_neg hq]
  have h2 : (get_inventory_locations (update_inventory_location db s.id (s.quantity - q)).1
      P B).head? = some d := by
    rw [get_inventory_locations_eq, head?_filter, update_inventory_location_locations, hdest]
  rw [h2]
  simp only [update_inventory_location_fst]
  rfl

theorem transfer_success_dest_new (db : Database) (uid P A B : String) (q : Int)
    (r : String) (s : InventoryLocation)
    (hfind : db.inventory_locations.find? (matchPL P A) = some s)
    (hq : ¬(s.quantity < q))
    (hdest : (setRowQuantity db.inventory_locations s.id (s.quantity - q)).find? (matchPL P B)
      = none) :
    transfer_inventory db uid P A B q r =
      ({ db with
          inventory_locations :=
            setRowQuantity db.inventory_locations s.id (s.quantity - q) ++
              [⟨db.nextRowId, P, B, q⟩],
          audit_log := db.audit_log ++
            [⟨uid, "inventory_transfer", transferDetails P A B q r⟩],
          nextRowId := db.nextRowId + 1 },
       true, "Inventory transferred successfully") := by
  have h1 : (get_inventory_locations db P A).head? = some s := by
    rw [get_inventory_locations_eq, head?_filter, hfind]
  unfold transfer_inventory
  rw [h1]
  simp only [if_neg hq]
  have h2 : (get_inventory_locations (update_inventory_location db s.id (s.quantity - q)).1
      P B).head? = none := by
    rw [get_inventory_locations_eq, head?_filter, update_inventory_location_locations, hdest]
  rw [h2]
  simp only [update_inventory_location_fst]
  rfl

theorem locQtySum_nil (p : InventoryLocation → Bool) : locQtySum p [] = 0 := rfl

theorem matchPL_unpack (P A : String) (x : InventoryLocation)
    (h : matchPL P A x = true) : x.product_id = P ∧ x.location_id = A := by
  simpa [matchPL] using h

/-! ### Claim C1 -/

/-- C1 (counterexample): as stated, C1 quantifies over all location pairs,
including `A = B`.  The code performs a self-transfer without complaint
(there is no distinct-endpoint check): on a store whose product `X` has 5
units at `L1`, `transfer(X, L1, L1, 3)` satisfies the claim premise
`3 <= quantityAt(X, L1)`, reports success, and leaves `quantityAt(X, L1)`
at 5, so the quantity at the source does not decrease by 3. -/
theorem transfer_self_location_violates_conservation :
    (3 : Int) ≤ quantityAt exampleDb "X" "L1" ∧
    (transfer_inventory exampleDb "u" "X" "L1" "L1" 3 "").2.1 = true ∧
    ¬(quantityAt (transfer_inventory exampleDb "u" "X" "L1" "L1" 3 "").1 "X" "L1" =
        quantityAt exampleDb "X" "L1" - 3) := by
  decide

/-- C1 (amended: the two locations must be distinct, `A ≠ B`): for every
product `P`, distinct locations `A ≠ B` and quantity `q ≤ quantityAt(P, A)`,
a successful `transfer_inventory(P, A, B, q)` decreases the InventoryLocation
quantity at `(P, A)` by exactly `q`, increases the InventoryLocation quantity
at `(P, B)` by exactly `q` (creating the row when absent), leaves
`totalForProduct(P)` (the sum over the InventoryLocation rows of `P`)
unchanged, and leaves the aggregate `Product.quantity` unchanged.
`RowIdsUnique` is the well-formedness invariant that the `uuid4` row
identifiers are pairwise distinct. -/
theorem transfer_conservation (db : Database) (uid P A B : String) (q : Int)
    (reason : String)
    (hIds : RowIdsUnique db) (hAB : A ≠ B)
    (hle : q ≤ quantityAt db P A)
    (hsucc : (transfer_inventory db uid P A B q reason).2.1 = true) :
    quantityAt (transfer_inventory db uid P A B q reason).1 P A = quantityAt db P A - q ∧
    quantityAt (transfer_inventory db uid P A B q reason).1 P B = quantityAt db P B + q ∧
    get_total_inventory_by_product (transfer_inventory db uid P A B q reason).1 P =
      get_total_inventory_by_product db P ∧
    productQuantity (transfer_inventory db uid P A B q reason).1 P = productQuantity db P := by
  have hIds' : (db.inventory_locations.map (fun row => row.id)).Nodup := hIds
  cases hfind : db.inventory_locations.find? (matchPL P A) with
  | none =>
    rw [transfer_fail_of_none db uid P A B q reason hfind] at hsucc
    simp at hsucc
  | some s =>
    by_cases hq : s.quantity < q
    · rw [transfer_fail_of_insufficient db uid P A B q reason s hfind hq] at hsucc
      simp at hsucc
    · have hsA : matchPL P A s = true := List.find?_some hfind
      have hsmem : s ∈ db.inventory_locations := List.mem_of_find?_eq_some hfind
      obtain ⟨hsP, hsL⟩ := matchPL_unpack P A s hsA
      have hsB : ¬(matchPL P B s = true) := by
        simp [matchPL, hsP, hsL, hAB]
      have hsPp : matchP P s = true := by simp [matchP, hsP]
      have hnd1 : ((setRowQuantity db.inventory_locations s.id (s.quantity - q)).map
          (fun row => row.id)).Nodup := by
        rw [map_id_setRowQuantity]; exact hIds'
      cases hdest : (setRowQuantity db.inventory_locations s.id (s.quantity - q)).find?
          (matchPL P B) with
      | some d =>
        have hdB : matchPL P B d = true := List.find?_some hdest
        have hdmem : d ∈ setRowQuantity db.inventory_locations s.id (s.quantity - q) :=
          List.mem_of_find?_eq_some hdest
        obtain ⟨hdP, hdL⟩ := matchPL_unpack P B d hdB
        have hdA : ¬(matchPL P A d = true) := by
          simp [matchPL, hdP, hdL, Ne.symm hAB]
        have hdPp : matchP P d = true := by simp [matchP, hdP]
        rw [transfer_success_dest_found db uid P A B q reason s d hfind hq hdest]
        refine ⟨?_, ?_, ?_, rfl⟩
        · show locQtySum (matchPL P A) _ = locQtySum (matchPL P A) db.inventory_locations - q
          rw [locQtySum_setRowQuantity (matchPL P A) (matchPL_set_quantity P A) _ d _ hdmem hnd1,
            locQtySum_setRowQuantity (matchPL P A) (matchPL_set_quantity P A) _ s _ hsmem hIds',
            if_neg hdA, if_pos hsA]
          ring
        · show locQtySum (matchPL P B) _ = locQtySum (matchPL P B) db.inventory_locations + q
          rw [locQtySum_setRowQuantity (matchPL P B) (matchPL_set_quantity P B) _ d _ hdmem hnd1,
            locQtySum_setRowQuantity (matchPL P B) (matchPL_set_quantity P B) _ s _ hsmem hIds',
            if_pos hdB, if_neg hsB]
          ring
        · show locQtySum (matchP P) _ = locQtySum (matchP P) db.inventory_locations
          rw [locQtySum_setRowQuantity (matchP P) (matchP_set_quantity P) _ d _ hdmem hnd1,
            locQtySum_setRowQuantity (matchP P) (matchP_set_quantity P) _ s _ hsmem hIds',
            if_pos hdPp, if_pos hsPp]
          ring
      | none =>
        rw [transfer_success_dest_new db uid P A B q reason s hfind hq hdest]
        have hnewA : ¬(matchPL P A (⟨db.nextRowId, P, B, q⟩ : InventoryLocation) = true) := by
          simp [matchPL, Ne.symm hAB]
        have hnewB : matchPL P B (⟨db.nextRowId, P, B, q⟩ : InventoryLocation) = true := by
          simp [matchPL]
        have hnewP : matchP P (⟨db.nextRowId, P, B, q⟩ : InventoryLocation) = true := by
          simp [matchP]
        refine ⟨?_, ?_, ?_, rfl⟩
        · show locQtySum (matchPL P A) _ = locQtySum (matchPL P A) db.inventory_locations - q
          rw [locQtySum_append,
            locQtySum_setRowQuantity (matchPL P A) (matchPL_set_quantity P A) _ s _ hsmem hIds',
            locQtySum_cons, locQtySum_nil, if_neg hnewA, if_pos hsA]
          ring
        · show locQtySum (matchPL P B) _ = locQtySum (matchPL P B) db.inventory_locations + q
          rw [locQtySum_append,
            locQtySum_setRowQuantity (matchPL P B) (matchPL_set_quantity P B) _ s _ hsmem hIds',
            locQtySum_cons, locQtySum_nil, if_pos hnewB, if_neg hsB]
          ring
        · show locQtySum (matchP P) _ = locQtySum (matchP P) db.inventory_locations
          rw [locQtySum_append,
            locQtySum_setRowQuantity (matchP P) (matchP_set_quantity P) _ s _ hsmem hIds',
            locQtySum_cons, locQtySum_nil, if_pos hnewP, if_pos hsPp]
          ring

/-- C1 (witness): the amended conservation theorem applied to the concrete
scenario store, transferring 4 units of `X` from `A` to `B`. -/
theorem transfer_conservation_witness :
    RowIdsUnique scenarioDb ∧
    (quantityAt (transfer_inventory scenarioDb "u" "X" "A" "B" 4 "").1 "X" "A" =
        quantityAt scenarioDb "X" "A" - 4 ∧
      quantityAt (transfer_inventory scenarioDb "u" "X" "A" "B" 4 "").1 "X" "B" =
        quantityAt scenarioDb "X" "B" + 4 ∧
      get_total_inventory_by_product (transfer_inventory scenarioDb "u" "X" "A" "B" 4 "").1 "X" =
        get_total_inventory_by_product scenarioDb "X" ∧
      productQuantity (transfer_inventory scenarioDb "u" "X" "A" "B" 4 "").1 "X" =
        productQuantity scenarioDb "X") :=
  ⟨by unfold RowIdsUnique; decide,
   transfer_conservation scenarioDb "u" "X" "A" "B" 4 ""
     (by unfold RowIdsUnique; decide) (by decide) (by decide) (by decide)⟩

theorem productQuantity_of_find? (db : Database) (P : String) (p : Product)
    (hp : get_inventory_item db P = some p) : productQuantity db P = p.quantity := by
  unfold productQuantity
  rw [hp]

theorem productQuantity_setItemQuantity (l : List Product) (P : String) (q : Int)
    (p : Product) (hfind : l.find? (fun item => item.id == P) = some p)
    (db' : Database) (h : db'.inventory = setItemQuantity l P q) :
    productQuantity db' P = q := by
  unfold productQuantity get_inventory_item
  rw [h, find?_setItemQuantity_self l P q p hfind]

/-! ### Claim C2 -/

/-- C2 (counterexample): `totalForProduct` is the sum over InventoryLocation
rows, and the invoice-path deduction touches only the aggregate
`Product.quantity`, never the rows.  On a store where `X` has aggregate
quantity 3 and one row of 5 units at `L1`, deducting 6 (more than the
current quantity on either reading) leaves `totalForProduct(X) = 5`, not 0. -/
theorem deduct_leaves_location_total_untouched :
    productQuantity exampleDb "X" < 6 ∧
    get_total_inventory_by_product exampleDb "X" < 6 ∧
    ¬(get_total_inventory_by_product (deduct_invoice_item exampleDb "X" 6) "X" = 0) := by
  decide

/-- C2 (amended: the quantity driven to zero is the aggregate
`Product.quantity`, not the InventoryLocation sum): for every product `P`
and quantity `q` exceeding the current aggregate quantity, the invoice-path
deduction succeeds and afterwards the aggregate quantity of `P` equals 0 —
never negative — while the InventoryLocation sum `totalForProduct(P)` is not
touched at all. -/
theorem deduct_clamps_aggregate_to_zero (db : Database) (P : String) (q : Int)
    (p : Product) (hp : get_inventory_item db P = some p) (hq : p.quantity < q) :
    productQuantity (deduct_invoice_item db P q) P = 0 ∧
    (0 : Int) ≤ productQuantity (deduct_invoice_item db P q) P ∧
    get_total_inventory_by_product (deduct_invoice_item db P q) P =
      get_total_inventory_by_product db P := by
  have hfind : db.inventory.find? (fun item => item.id == P) = some p := hp
  have hmax : max 0 (p.quantity - q) = 0 := max_eq_left (by omega)
  have h1 : productQuantity (deduct_invoice_item db P q) P = 0 := by
    have h2 := productQuantity_setItemQuantity db.inventory P (max 0 (p.quantity - q)) p
      hfind (deduct_invoice_item db P q) (by unfold deduct_invoice_item; rw [hp]; simp)
    rw [h2, hmax]
  refine ⟨h1, by simp [h1], ?_⟩
  unfold deduct_invoice_item
  rw [hp, total_eq, total_eq]
  simp

/-- C2 (witness): the amended clamp theorem applied to the concrete example
store, deducting 6 units of `X` whose aggregate quantity is 3. -/
theorem deduct_clamps_aggregate_witness :
    get_inventory_item exampleDb "X" = some ⟨"X", "X", 3, []⟩ ∧
    (productQuantity (deduct_invoice_item exampleDb "X" 6) "X" = 0 ∧
      (0 : Int) ≤ productQuantity (deduct_invoice_item exampleDb "X" 6) "X" ∧
      get_total_inventory_by_product (deduct_invoice_item exampleDb "X" 6) "X" =
        get_total_inventory_by_product exampleDb "X") :=
  ⟨by decide,
   deduct_clamps_aggregate_to_zero exampleDb "X" 6 ⟨"X", "X", 3, []⟩
     (by decide) (by decide)⟩

/-! ### Claim C3 -/

/-- C3 (counterexample): the receive-stock handler adds to the aggregate
`Product.quantity` only; it never writes an InventoryLocation row, so
`totalForProduct` (the sum of the InventoryLocation quantities, 5 in the
example store) does not increase by the received quantity. -/
theorem receive_leaves_location_total_untouched :
    (0 : Int) < 2 ∧
    ¬(get_total_inventory_by_product (receive_stock exampleDb "u" "X" 2) "X" =
        get_total_inventory_by_product exampleDb "X" + 2) := by
  decide

/-- C3 (amended: the quantity increased is the aggregate `Product.quantity`,
not the InventoryLocation sum): for every product `P` and quantity `q > 0`,
a successful receive increases the aggregate quantity of `P` by exactly `q`
and leaves the InventoryLocation sum `totalForProduct(P)` unchanged. -/
theorem receive_increases_aggregate (db : Database) (uid P : String) (q : Int)
    (p : Product) (hp : get_inventory_item db P = some p) (hq : 0 < q) :
    productQuantity (receive_stock db uid P q) P = productQuantity db P + q ∧
    get_total_inventory_by_product (receive_stock db uid P q) P =
      get_total_inventory_by_product db P := by
  have hfind : db.inventory.find? (fun item => item.id == P) = some p := hp
  constructor
  · have h1 := productQuantity_setItemQuantity db.inventory P (p.quantity + q) p hfind
      (receive_stock db uid P q) (by unfold receive_stock; rw [hp]; simp)
    rw [h1, productQuantity_of_find? db P p hp]
  · unfold receive_stock
    rw [hp, total_eq, total_eq]
    simp

/-- C3 (witness): the amended receive theorem applied to the concrete
example store, receiving 2 units of `X`. -/
theorem receive_increases_aggregate_witness :
    (0 : Int) < 2 ∧
    (productQuantity (receive_stock exampleDb "u" "X" 2) "X" =
        productQuantity exampleDb "X" + 2 ∧
      get_total_inventory_by_product (receive_stock exampleDb "u" "X" 2) "X" =
        get_total_inventory_by_product exampleDb "X") :=
  ⟨by decide,
   receive_increases_aggregate exampleDb "u" "X" 2 ⟨"X", "X", 3, []⟩
     (by decide) (by decide)⟩

/-! ### Claim C4 -/

/-- C4: for every product `P` and negative delta whose magnitude exceeds the
current aggregate quantity, the adjust-stock handler refuses the adjustment
(`st.error("Cannot have negative stock")`, the outcome the spec calls
`InsufficientStockError`) and returns the store completely unchanged: no
record of any collection is mutated and no audit entry is written, so in
particular `Product.quantity` and `totalForProduct(P)` are unchanged. -/
theorem adjust_insufficient_rejected (db : Database) (uid P : String) (d : Int)
    (reason : String) (p : Product) (hp : get_inventory_item db P = some p)
    (hneg : d < 0) (hmag : p.quantity < -d) :
    adjust_stock db uid P d reason = (db, .insufficientStock) := by
  unfold adjust_stock
  rw [hp]
  have hlt : p.quantity + d < 0 := by omega
  simp [hlt]

/-- C4 (witness): the rejection theorem applied to the concrete example
store, adjusting `X` (aggregate quantity 3) by -5. -/
theorem adjust_insufficient_rejected_witness :
    ((-5 : Int) < 0 ∧ (3 : Int) < -(-5)) ∧
    adjust_stock exampleDb "u" "X" (-5) "Damaged" = (exampleDb, .insufficientStock) :=
  ⟨by decide,
   adjust_insufficient_rejected exampleDb "u" "X" (-5) "Damaged" ⟨"X", "X", 3, []⟩
     (by decide) (by decide) (by decide)⟩

/-! ### Claim C5 -/

/-- C5: for every product `P`, locations `A`, `B` and quantity `q` strictly
greater than `quantityAt(P, A)` — including the case where no
InventoryLocation row exists for `(P, A)` at all — the transfer fails with
the insufficient-stock error (`"Not enough inventory at source location"`)
and the store is returned completely unchanged: no InventoryLocation row is
mutated or created.  The nonnegativity hypothesis is the row-quantity
invariant `quantity >= 0` of the data model. -/
theorem transfer_insufficient_source_fails (db : Database) (uid P A B : String)
    (q : Int) (reason : String)
    (hnn : ∀ r ∈ db.inventory_locations, 0 ≤ r.quantity)
    (hgt : quantityAt db P A < q) :
    transfer_inventory db uid P A B q reason =
      (db, false, "Not enough inventory at source location") := by
  cases hfind : db.inventory_locations.find? (matchPL P A) with
  | none => exact transfer_fail_of_none db uid P A B q reason hfind
  | some s =>
    have hsA : matchPL P A s = true := List.find?_some hfind
    have hsmem : s ∈ db.inventory_locations := List.mem_of_find?_eq_some hfind
    have hle : s.quantity ≤ quantityAt db P A := by
      rw [quantityAt_eq]
      exact single_le_locQtySum _ _ s hsmem hsA hnn
    exact transfer_fail_of_insufficient db uid P A B q reason s hfind (by omega)

/-- C5 (witness): the insufficient-source theorem applied to the concrete
example store: transferring 7 units of `X` from `L1` (which holds 5) to
`L2`. -/
theorem transfer_insufficient_source_fails_witness :
    (∀ r ∈ exampleDb.inventory_locations, (0 : Int) ≤ r.quantity) ∧
    transfer_inventory exampleDb "u" "X" "L1" "L2" 7 "" =
      (exampleDb, false, "Not enough inventory at source location") :=
  ⟨by decide,
   transfer_insufficient_source_fails exampleDb "u" "X" "L1" "L2" 7 ""
     (by decide) (by decide)⟩

/-! ### Claim C6 -/

/-- C6 (counterexample): `transfer_inventory` contains no argument
validation at all.  On the example store (5 units of `X` at `L1`), a
transfer with identical endpoints `transfer(X, L1, L1, 3)` is not rejected:
it reports success rather than a `ValidationError`, and it does mutate the
store (an audit entry is appended). -/
theorem transfer_self_location_not_rejected :
    (transfer_inventory exampleDb "u" "X" "L1" "L1" 3 "").2.1 = true ∧
    ¬((transfer_inventory exampleDb "u" "X" "L1" "L1" 3 "").1 = exampleDb) := by
  decide

/-- C6 (amended: the code performs no `q > 0` / `A ≠ B` validation): a call
of `transfer_inventory(P, A, B, q)` whose arguments are bad in the claimed
sense (`q ≤ 0` or `A = B`) is not rejected with a `ValidationError`; it
succeeds whenever the first source row for `(P, A)` exists with quantity at
least `q` — the only failure the code can report is the
insufficient-source error. -/
theorem transfer_skips_validation (db : Database) (uid P A B : String) (q : Int)
    (reason : String) (s : InventoryLocation)
    (hfind : db.inventory_locations.find? (matchPL P A) = some s)
    (hq : ¬(s.quantity < q))
    (hbad : q ≤ 0 ∨ A = B) :
    (transfer_inventory db uid P A B q reason).2.1 = true := by
  cases hdest : (setRowQuantity db.inventory_locations s.id (s.quantity - q)).find?
      (matchPL P B) with
  | some d => rw [transfer_success_dest_found db uid P A B q reason s d hfind hq hdest]
  | none => rw [transfer_success_dest_new db uid P A B q reason s hfind hq hdest]

/-- C6 (witness): the no-validation theorem applied to the concrete example
store with identical endpoints `L1 = L1` and quantity 3. -/
theorem transfer_skips_validation_witness :
    ((3 : Int) ≤ 0 ∨ "L1" = "L1") ∧
    (transfer_inventory exampleDb "u" "X" "L1" "L1" 3 "").2.1 = true :=
  ⟨Or.inr rfl,
   transfer_skips_validation exampleDb "u" "X" "L1" "L1" 3 "" ⟨0, "X", "L1", 5⟩
     (by decide) (by decide) (Or.inr rfl)⟩

/-! ### Claim C7 -/

/-- C7 (counterexample): the inventory deduction performed during invoice
creation (src/app.py lines 4374-4379) calls no `log_audit` at all — and
neither do `add_invoice` and `add_invoice_item`.  On the example store,
deducting 1 unit of `X` through the invoice path changes the aggregate
quantity (so the operation succeeded and mutated the ledger) while the
audit log is left exactly as it was: a successful deduct with zero new
audit entries. -/
theorem invoice_deduction_appends_no_audit_entry :
    ¬(productQuantity (deduct_invoice_item exampleDb "X" 1) "X" =
        productQuantity exampleDb "X") ∧
    (deduct_invoice_item exampleDb "X" 1).audit_log = exampleDb.audit_log := by
  decide

/-- C7 (amended: true for every operation except the invoice-path
deduction): each successful receive, adjust, transfer and dashboard deduct
appends exactly one audit entry whose action kind and details (product,
locations, quantities) match the operation, and each failed adjust or
transfer appends none; the invoice-path deduction, however, always appends
zero audit entries even when it succeeds. -/
theorem audit_entries_per_operation :
    (∀ (db : Database) (uid P : String) (q : Int) (p : Product),
      get_inventory_item db P = some p →
      (receive_stock db uid P q).audit_log =
        db.audit_log ++ [⟨uid, "stock_received", receiveDetails q p.name (p.quantity + q)⟩]) ∧
    (∀ (db : Database) (uid P : String) (d : Int) (reason : String) (p : Product),
      get_inventory_item db P = some p → ¬(p.quantity + d < 0) →
      (adjust_stock db uid P d reason).1.audit_log =
        db.audit_log ++ [⟨uid, "stock_adjusted", adjustDetails p.name d reason (p.quantity + d)⟩]) ∧
    (∀ (db : Database) (uid P : String) (d : Int) (reason : String) (p : Product),
      get_inventory_item db P = some p → p.quantity + d < 0 →
      (adjust_stock db uid P d reason).1.audit_log = db.audit_log) ∧
    (∀ (db : Database) (uid P A B : String) (q : Int) (reason : String),
      (transfer_inventory db uid P A B q reason).2.1 = true →
      (transfer_inventory db uid P A B q reason).1.audit_log =
        db.audit_log ++ [⟨uid, "inventory_transfer", transferDetails P A B q reason⟩]) ∧
    (∀ (db : Database) (uid P A B : String) (q : Int) (reason : String),
      (transfer_inventory db uid P A B q reason).2.1 = false →
      (transfer_inventory db uid P A B q reason).1.audit_log = db.audit_log) ∧
    (∀ (db : Database) (uid P : String) (q : Int) (reason : String) (p : Product),
      get_inventory_item db P = some p →
      (deduct_stock db uid P q reason).audit_log =
        db.audit_log ++ [⟨uid, "stock_deducted", deductDetails q p.name reason⟩]) ∧
    (∀ (db : Database) (P : String) (q : Int),
      (deduct_invoice_item db P q).audit_log = db.audit_log) := by
  refine ⟨?_, ?_, ?_, ?_, ?_, ?_, ?_⟩
  · intro db uid P q p hp
    unfold receive_stock
    rw [hp]
    simp
  · intro db uid P d reason p hp hge
    unfold adjust_stock
    rw [hp]
    simp only [if_neg hge]
    simp
  · intro db uid P d reason p hp hlt
    unfold adjust_stock
    rw [hp]
    simp only [if_pos hlt]
  · intro db uid P A B q reason hsucc
    cases hfind : db.inventory_locations.find? (matchPL P A) with
    | none =>
      rw [transfer_fail_of_none db uid P A B q reason hfind] at hsucc
      simp at hsucc
    | some s =>
      by_cases hq : s.quantity < q
      · rw [transfer_fail_of_insufficient db uid P A B q reason s hfind hq] at hsucc
        simp at hsucc
      · cases hdest : (setRowQuantity db.inventory_locations s.id (s.quantity - q)).find?
            (matchPL P B) with
        | some d => rw [transfer_success_dest_found db uid P A B q reason s d hfind hq hdest]
        | none => rw [transfer_success_dest_new db uid P A B q reason s hfind hq hdest]
  · intro db uid P A B q reason hfail
    cases hfind : db.inventory_locations.find? (matchPL P A) with
    | none => rw [transfer_fail_of_none db uid P A B q reason hfind]
    | some s =>
      by_cases hq : s.quantity < q
      · rw [transfer_fail_of_insufficient db uid P A B q reason s hfind hq]
      · cases hdest : (setRowQuantity db.inventory_locations s.id (s.quantity - q)).find?
            (matchPL P B) with
        | some d =>
          rw [transfer_success_dest_found db uid P A B q reason s d hfind hq hdest] at hfail
          simp at hfail
        | none =>
          rw [transfer_success_dest_new db uid P A B q reason s hfind hq hdest] at hfail
          simp at hfail
  · intro db uid P q reason p hp
    unfold deduct_stock
    rw [hp]
    simp
  · intro db P q
    unfold deduct_invoice_item
    cases hp : get_inventory_item db P with
    | none => rfl
    | some p => simp

/-- C7 (witness): the per-operation audit theorem applied to the concrete
example store: a successful receive appends its one `stock_received` entry,
a failed adjust and a failed transfer append nothing, and the invoice-path
deduction appends nothing. -/
theorem audit_entries_per_operation_witness :
    (receive_stock exampleDb "u" "X" 2).audit_log =
      exampleDb.audit_log ++ [⟨"u", "stock_received", receiveDetails 2 "X" (3 + 2)⟩] ∧
    (adjust_stock exampleDb "u" "X" (-5) "Damaged").1.audit_log = exampleDb.audit_log ∧
    (transfer_inventory exampleDb "u" "X" "L1" "L2" 7 "").1.audit_log = exampleDb.audit_log ∧
    (deduct_invoice_item exampleDb "X" 1).audit_log = exampleDb.audit_log :=
  ⟨audit_entries_per_operation.1 exampleDb "u" "X" 2 ⟨"X", "X", 3, []⟩ (by decide),
   audit_entries_per_operation.2.2.1 exampleDb "u" "X" (-5) "Damaged" ⟨"X", "X", 3, []⟩
     (by decide) (by decide),
   audit_entries_per_operation.2.2.2.2.1 exampleDb "u" "X" "L1" "L2" 7 "" (by decide),
   audit_entries_per_operation.2.2.2.2.2.2 exampleDb "X" 1⟩

theorem receive_stock_locations (db : Database) (uid P : String) (q : Int) :
    (receive_stock db uid P q).inventory_locations = db.inventory_locations := by
  unfold receive_stock
  cases hp : get_inventory_item db P with
  | none => rfl
  | some p => simp

theorem adjust_stock_locations (db : Database) (uid P : String) (d : Int) (r : String) :
    (adjust_stock db uid P d r).1.inventory_locations = db.inventory_locations := by
  unfold adjust_stock
  cases hp : get_inventory_item db P with
  | none => rfl
  | some p =>
    by_cases hlt : p.quantity + d < 0
    · simp [hlt]
    · simp [hlt]

theorem deduct_stock_locations (db : Database) (uid P : String) (q : Int) (r : String) :
    (deduct_stock db uid P q r).inventory_locations = db.inventory_locations := by
  unfold deduct_stock
  cases hp : get_inventory_item db P with
  | none => rfl
  | some p => simp

theorem deduct_invoice_item_locations (db : Database) (P : String) (q : Int) :
    (deduct_invoice_item db P q).inventory_locations = db.inventory_locations := by
  unfold deduct_invoice_item
  cases hp : get_inventory_item db P with
  | none => rfl
  | some p => simp

/-! ### Claim C8 -/

/-- C8: the at-most-one-InventoryLocation-row-per-(product, location)-pair
invariant is preserved by every ledger write.  Receive, adjust and both
deduction paths never touch the rows; a transfer rewrites the quantity of
existing rows in place (merging into the existing destination row when the
pair already has one) and appends a fresh row only when its
`(product, destination)` pair has no row — so no ledger operation ever
creates a duplicate row for a pair. -/
theorem ledger_preserves_pair_uniqueness (db : Database) (hU : PairUnique db) :
    (∀ (uid P : String) (q : Int), PairUnique (receive_stock db uid P q)) ∧
    (∀ (uid P : String) (d : Int) (reason : String),
      PairUnique (adjust_stock db uid P d reason).1) ∧
    (∀ (uid P : String) (q : Int) (reason : String),
      PairUnique (deduct_stock db uid P q reason)) ∧
    (∀ (P : String) (q : Int), PairUnique (deduct_invoice_item db P q)) ∧
    (∀ (uid P A B : String) (q : Int) (reason : String),
      PairUnique (transfer_inventory db uid P A B q reason).1) := by
  refine ⟨?_, ?_, ?_, ?_, ?_⟩
  · intro uid P q
    show ((receive_stock db uid P q).inventory_locations.map pairKey).Nodup
    rw [receive_stock_locations]
    exact hU
  · intro uid P d reason
    show ((adjust_stock db uid P d reason).1.inventory_locations.map pairKey).Nodup
    rw [adjust_stock_locations]
    exact hU
  · intro uid P q reason
    show ((deduct_stock db uid P q reason).inventory_locations.map pairKey).Nodup
    rw [deduct_stock_locations]
    exact hU
  · intro P q
    show ((deduct_invoice_item db P q).inventory_locations.map pairKey).Nodup
    rw [deduct_invoice_item_locations]
    exact hU
  · intro uid P A B q reason
    show ((transfer_inventory db uid P A B q reason).1.inventory_locations.map pairKey).Nodup
    cases hfind : db.inventory_locations.find? (matchPL P A) with
    | none =>
      rw [transfer_fail_of_none db uid P A B q reason hfind]
      exact hU
    | some s =>
      by_cases hq : s.quantity < q
      · rw [transfer_fail_of_insufficient db uid P A B q reason s hfind hq]
        exact hU
      · cases hdest : (setRowQuantity db.inventory_locations s.id (s.quantity - q)).find?
            (matchPL P B) with
        | some d =>
          rw [transfer_success_dest_found db uid P A B q reason s d hfind hq hdest]
          show ((setRowQuantity _ _ _).map pairKey).Nodup
          rw [map_pairKey_setRowQuantity, map_pairKey_setRowQuantity]
          exact hU
        | none =>
          rw [transfer_success_dest_new db uid P A B q reason s hfind hq hdest]
          show (((setRowQuantity db.inventory_locations s.id (s.quantity - q) ++
            [(⟨db.nextRowId, P, B, q⟩ : InventoryLocation)]).map pairKey)).Nodup
          have hnone := List.find?_eq_none.mp hdest
          have hkey : (P, B) ∉ (setRowQuantity db.inventory_locations s.id
              (s.quantity - q)).map pairKey := by
            intro hmem
            obtain ⟨r, hr, hkeq⟩ := List.mem_map.mp hmem
            apply hnone r hr
            have h1 : r.product_id = P := congrArg Prod.fst hkeq
            have h2 : r.location_id = B := congrArg Prod.snd hkeq
            simp [matchPL, h1, h2]
          rw [List.map_append, List.nodup_append]
          refine ⟨?_, ?_, ?_⟩
          · rw [map_pairKey_setRowQuantity]; exact hU
          · simp
          · intro x hx hx1
            have : x = (P, B) := by simpa [pairKey] using hx1
            exact hkey (this ▸ hx)

/-- C8 (witness): pair uniqueness holds on the scenario store and is kept
by the transfer of 4 units of `X` from `A` to `B`. -/
theorem ledger_preserves_pair_uniqueness_witness :
    PairUnique scenarioDb ∧
    PairUnique (transfer_inventory scenarioDb "u" "X" "A" "B" 4 "").1 :=
  ⟨by unfold PairUnique; decide,
   (ledger_preserves_pair_uniqueness scenarioDb
     (by unfold PairUnique; decide)).2.2.2.2 "u" "X" "A" "B" 4 ""⟩

/-! ### Claim C9 -/

/-- C9: the spec section 8 scenario, replayed on the concrete scenario
store (product `X`: aggregate quantity 10, 10 units at `A`, 0 at `B`), with
"total" read as the aggregate `Product.quantity` — the reading the spec
itself fixes for the deduction step ("clamped, since aggregate path does
not consult per-location split").  `transfer(X, A, B, 4)` succeeds giving
`A = 6`, `B = 4` and total 10 (on both readings: the aggregate and the
InventoryLocation sum); then the invoice-path `deduct(X, 6)` leaves total
4; then `adjust(X, -10, "damaged")` is refused and the total remains 4. -/
theorem section8_scenario :
    (transfer_inventory scenarioDb "u" "X" "A" "B" 4 "").2.1 = true ∧
    quantityAt (transfer_inventory scenarioDb "u" "X" "A" "B" 4 "").1 "X" "A" = 6 ∧
    quantityAt (transfer_inventory scenarioDb "u" "X" "A" "B" 4 "").1 "X" "B" = 4 ∧
    productQuantity (transfer_inventory scenarioDb "u" "X" "A" "B" 4 "").1 "X" = 10 ∧
    get_total_inventory_by_product
      (transfer_inventory scenarioDb "u" "X" "A" "B" 4 "").1 "X" = 10 ∧
    productQuantity
      (deduct_invoice_item (transfer_inventory scenarioDb "u" "X" "A" "B" 4 "").1 "X" 6)
      "X" = 4 ∧
    (adjust_stock
      (deduct_invoice_item (transfer_inventory scenarioDb "u" "X" "A" "B" 4 "").1 "X" 6)
      "u" "X" (-10) "damaged").2 = .insufficientStock ∧
    productQuantity
      (adjust_stock
        (deduct_invoice_item (transfer_inventory scenarioDb "u" "X" "A" "B" 4 "").1 "X" 6)
        "u" "X" (-10) "damaged").1 "X" = 4 := by
  decide

/-! ### Claim C10 -/

/-- C10: the receive operation and both deduction paths mutate only the
quantity field of the targeted product record in the `inventory`
collection: every InventoryLocation row is untouched, every product record
whose id differs from the target is fully unchanged, and even on the
targeted record the id, name and all remaining fields (`extra`) are
preserved — formalised by the pointwise frame relation
`OnlyQuantityChanged`. -/
theorem receive_deduct_frame :
    ∀ (db : Database) (uid P : String) (q : Int) (reason : String),
      (List.Forall₂ (OnlyQuantityChanged P) db.inventory
        (receive_stock db uid P q).inventory ∧
       (receive_stock db uid P q).inventory_locations = db.inventory_locations) ∧
      (List.Forall₂ (OnlyQuantityChanged P) db.inventory
        (deduct_invoice_item db P q).inventory ∧
       (deduct_invoice_item db P q).inventory_locations = db.inventory_locations) ∧
      (List.Forall₂ (OnlyQuantityChanged P) db.inventory
        (deduct_stock db uid P q reason).inventory ∧
       (deduct_stock db uid P q reason).inventory_locations = db.inventory_locations) := by
  intro db uid P q reason
  have hrefl : List.Forall₂ (OnlyQuantityChanged P) db.inventory db.inventory :=
    List.forall₂_same.mpr (fun x _ => ⟨rfl, rfl, rfl, fun _ => rfl⟩)
  refine ⟨⟨?_, receive_stock_locations db uid P q⟩,
    ⟨?_, deduct_invoice_item_locations db P q⟩,
    ⟨?_, deduct_stock_locations db uid P q reason⟩⟩
  · unfold receive_stock
    cases hp : get_inventory_item db P with
    | none => exact hrefl
    | some p =>
      show List.Forall₂ (OnlyQuantityChanged P) db.inventory
        (log_audit (update_inventory_item db P (p.quantity + q)).1 _ _ _).inventory
      rw [log_audit_inventory, update_inventory_item_inventory]
      exact setItemQuantity_onlyQuantity db.inventory P (p.quantity + q)
  · unfold deduct_invoice_item
    cases hp : get_inventory_item db P with
    | none => exact hrefl
    | some p =>
      show List.Forall₂ (OnlyQuantityChanged P) db.inventory
        (update_inventory_item db P (max 0 (p.quantity - q))).1.inventory
      rw [update_inventory_item_inventory]
      exact setItemQuantity_onlyQuantity db.inventory P (max 0 (p.quantity - q))
  · unfold deduct_stock
    cases hp : get_inventory_item db P with
    | none => exact hrefl
    | some p =>
      show List.Forall₂ (OnlyQuantityChanged P) db.inventory
        (log_audit (update_inventory_item db P
          (if p.quantity - q < 0 then 0 else p.quantity - q)).1 _ _ _).inventory
      rw [log_audit_inventory, update_inventory_item_inventory]
      exact setItemQuantity_onlyQuantity db.inventory P _

end InventoryApp
